import Mathlib

/-!
Verification of the resilient batch-processing pipeline in
`src/scripts/master-gemini.py` (the "master AI tool").

The Python source is shallowly embedded below: pure helpers become Lean
functions over `List`/`Nat`/`Int`/`Rat`; Python strings are modelled as
`List Char`; the stateful retry loops become explicit recursion over an
oracle describing each attempt's outcome; JSON values are an inductive
type.  Every definition is translated from the source file; where an
external collaborator's behaviour matters (the pydantic validators, the
JSON serializer) the model is noted in the doc comment.
-/

set_option autoImplicit false

namespace MasterGemini

variable {α : Type}

/-- Embedding of `chunk_json_data` (master-gemini.py, lines 90-95):
`for i in range(0, len(data), chunk_size): chunks.append(data[i:i+chunk_size])`.
With `chunk_size = 0` Python's `range` raises `ValueError`, so no chunk list
is produced; that case is modelled as the empty result and is outside every
claim (all claims assume `chunk_size > 0`). -/
def chunk_json_data : List α → Nat → List (List α)
  | [], _ => []
  | _ :: _, 0 => []
  | a :: rest, k + 1 =>
      ((a :: rest).take (k + 1)) :: chunk_json_data ((a :: rest).drop (k + 1)) (k + 1)
termination_by l _ => l.length
decreasing_by
  simp only [List.length_drop, List.length_cons]
  omega

theorem chunk_json_data_nil (k : Nat) : chunk_json_data ([] : List α) k = [] := by
  simp [chunk_json_data]

theorem chunk_json_data_cons (a : α) (rest : List α) (k : Nat) :
    chunk_json_data (a :: rest) (k + 1) =
      ((a :: rest).take (k + 1)) :: chunk_json_data ((a :: rest).drop (k + 1)) (k + 1) := by
  rw [chunk_json_data]

theorem chunk_json_data_flatten (k : Nat) (hk : 0 < k) :
    ∀ data : List α, (chunk_json_data data k).flatten = data
  | [] => by simp [chunk_json_data_nil]
  | a :: rest => by
    obtain ⟨k', hkk⟩ : ∃ k', k = k' + 1 := ⟨k - 1, by omega⟩
    subst hkk
    rw [chunk_json_data_cons, List.flatten_cons]
    rw [chunk_json_data_flatten (k' + 1) hk ((a :: rest).drop (k' + 1))]
    exact List.take_append_drop _ _
termination_by data => data.length
decreasing_by
  simp only [List.length_drop, List.length_cons]
  omega

theorem chunk_json_data_length_le (k : Nat) (hk : 0 < k) :
    ∀ (data : List α), ∀ c ∈ chunk_json_data data k, c.length ≤ k
  | [] => by simp [chunk_json_data_nil]
  | a :: rest => by
    obtain ⟨k', hkk⟩ : ∃ k', k = k' + 1 := ⟨k - 1, by omega⟩
    subst hkk
    rw [chunk_json_data_cons]
    intro c hc
    rcases List.mem_cons.mp hc with h | h
    · subst h
      exact List.length_take_le _ _
    · exact chunk_json_data_length_le (k' + 1) hk ((a :: rest).drop (k' + 1)) c h
termination_by data => data.length
decreasing_by
  simp only [List.length_drop, List.length_cons]
  omega

theorem chunk_json_data_ne_nil (k : Nat) (hk : 0 < k) :
    ∀ (data : List α), ∀ c ∈ chunk_json_data data k, c ≠ []
  | [] => by simp [chunk_json_data_nil]
  | a :: rest => by
    obtain ⟨k', hkk⟩ : ∃ k', k = k' + 1 := ⟨k - 1, by omega⟩
    subst hkk
    rw [chunk_json_data_cons]
    intro c hc
    rcases List.mem_cons.mp hc with h | h
    · subst h
      simp
    · exact chunk_json_data_ne_nil (k' + 1) hk ((a :: rest).drop (k' + 1)) c h
termination_by data => data.length
decreasing_by
  simp only [List.length_drop, List.length_cons]
  omega

theorem chunk_json_data_getElem (k : Nat) (hk : 0 < k) :
    ∀ (data : List α) (i : Nat), i < (chunk_json_data data k).length →
      (chunk_json_data data k)[i]? = some ((data.drop (i * k)).take k)
  | [], i, h => by simp [chunk_json_data_nil] at h
  | a :: rest, i, h => by
    obtain ⟨k', hkk⟩ : ∃ k', k = k' + 1 := ⟨k - 1, by omega⟩
    subst hkk
    rw [chunk_json_data_cons] at h ⊢
    cases i with
    | zero => simp
    | succ i' =>
      have hlt : i' < (chunk_json_data ((a :: rest).drop (k' + 1)) (k' + 1)).length := by
        simpa using h
      rw [List.getElem?_cons_succ]
      rw [chunk_json_data_getElem (k' + 1) hk ((a :: rest).drop (k' + 1)) i' hlt]
      rw [List.drop_drop]
      congr 2
      ring_nf
termination_by data => data.length
decreasing_by
  simp only [List.length_drop, List.length_cons]
  omega

theorem chunk_json_data_not_last (k : Nat) (hk : 0 < k) (data : List α)
    (i : Nat) (h : i + 1 < (chunk_json_data data k).length) :
    ((data.drop (i * k)).take k).length = k := by
  -- the next chunk exists, is a member of the chunk list, and is non-empty
  have hget := chunk_json_data_getElem k hk data (i + 1) h
  have hmem : ((data.drop ((i + 1) * k)).take k) ∈ chunk_json_data data k :=
    List.getElem?_mem hget
  have hne : ((data.drop ((i + 1) * k)).take k) ≠ [] :=
    chunk_json_data_ne_nil k hk data _ hmem
  have hdropne : data.drop ((i + 1) * k) ≠ [] := by
    intro hcon
    apply hne
    rw [hcon, List.take_nil]
  have hlen : (i + 1) * k < data.length := by
    by_contra hcon
    exact hdropne (List.drop_eq_nil_iff.mpr (by omega))
  have hsucc : (i + 1) * k = i * k + k := by ring
  rw [List.length_take, List.length_drop]
  omega

/-- Claim C2: for every item list and every `chunk_size > 0`, the planner's
partition `chunk_json_data` concatenates back to the input exactly, every
chunk has length at most `chunk_size`, every chunk except possibly the last
has length exactly `chunk_size`, and the chunk at 0-indexed position `i`
contains exactly items `[i * chunk_size, (i+1) * chunk_size)` of the
original order. -/
theorem chunk_json_data_partition_correct (data : List α) (k : Nat) (hk : 0 < k) :
    (chunk_json_data data k).flatten = data
      ∧ (∀ c ∈ chunk_json_data data k, c.length ≤ k)
      ∧ (∀ i : Nat, i < (chunk_json_data data k).length →
          (chunk_json_data data k)[i]? = some ((data.drop (i * k)).take k))
      ∧ (∀ i : Nat, i + 1 < (chunk_json_data data k).length →
          (chunk_json_data data k)[i]? = some ((data.drop (i * k)).take k)
            ∧ ((data.drop (i * k)).take k).length = k) :=
  ⟨chunk_json_data_flatten k hk data, chunk_json_data_length_le k hk data,
    fun i h => chunk_json_data_getElem k hk data i h,
    fun i h => ⟨chunk_json_data_getElem k hk data i (by omega),
      chunk_json_data_not_last k hk data i h⟩⟩

/-- Concrete instantiation of C2: splitting `[1,2,3,4,5]` with chunk size 2. -/
theorem chunk_json_data_partition_correct_witness :
    (chunk_json_data [1, 2, 3, 4, 5] 2).flatten = [1, 2, 3, 4, 5] :=
  (chunk_json_data_partition_correct [1, 2, 3, 4, 5] 2 (by decide)).1

/-! ### Python string primitives

Python strings are modelled as `List Char`.  `lowerCh` models `str.lower()`
(the messages scanned by the classifiers are ASCII), `startsWithCh` models a
prefix test, and `containsCh needle hay` models Python's substring test
`needle in hay`. -/

def lowerCh (s : List Char) : List Char := s.map Char.toLower

def startsWithCh (s p : List Char) : Bool :=
  match p, s with
  | [], _ => true
  | _ :: _, [] => false
  | b :: bs, a :: as => a == b && startsWithCh as bs

def containsCh (needle : List Char) : List Char → Bool
  | [] => needle.isEmpty
  | c :: rest => startsWithCh (c :: rest) needle || containsCh needle rest

/-! ### Error classifier -/

/-- Exceptions distinguished by `is_retryable_error` (master-gemini.py,
lines 329-348): `ServerError` (5xx) and `ClientError` (4xx) from the remote
service carry a message (`str(error)`), the transport errors
`ConnectionError`/`TimeoutError` are builtins, and every other exception
falls into `otherError`. -/
inductive GenError : Type
  | serverError (msg : List Char)
  | clientError (msg : List Char)
  | connectionError (msg : List Char)
  | timeoutError (msg : List Char)
  | otherError (msg : List Char)

/-- Embedding of `is_retryable_error` (master-gemini.py, lines 329-348).
The `ClientError` branch lowercases `str(error)` and scans it for the
substrings `"rate limit"`, `"429"`, `"timeout"`, `"connection"`. -/
def is_retryable_error : GenError → Bool
  | .serverError _ => true
  | .clientError msg =>
      let m := lowerCh msg
      if containsCh ("rate limit".toList) m || containsCh ("429".toList) m then true
      else if containsCh ("timeout".toList) m || containsCh ("connection".toList) m then true
      else false
  | .connectionError _ => true
  | .timeoutError _ => true
  | .otherError _ => false

/-- Classifier as the spec's §4.1 policy words describe it: transport
failures retryable, 5xx retryable, 4xx terminal unless the message indicates
rate-limiting (the phrase `rate limit` or the status `429`), timeout, or
connection issues, everything else terminal. -/
def classify_spec : GenError → Bool
  | .serverError _ => true
  | .clientError msg =>
      containsCh ("rate limit".toList) (lowerCh msg)
        || containsCh ("429".toList) (lowerCh msg)
        || containsCh ("timeout".toList) (lowerCh msg)
        || containsCh ("connection".toList) (lowerCh msg)
  | .connectionError _ => true
  | .timeoutError _ => true
  | .otherError _ => false

theorem if_or_or_bool (a b c d : Bool) :
    (if a || b then true else if c || d then true else false) = (a || b || c || d) := by
  cases a <;> cases b <;> cases c <;> cases d <;> rfl

/-- Claim C3: the error classifier is total — it is a Lean function on the
whole `GenError` type, so every error maps to exactly one of retryable
(`true`) / terminal (`false`) — and it agrees with the §4.1 policy:
transport failures retryable, 5xx retryable, 4xx terminal unless the
message indicates rate-limiting, timeout, or connection issues, and every
other exception terminal. -/
theorem is_retryable_error_policy (e : GenError) :
    is_retryable_error e = classify_spec e := by
  cases e with
  | serverError msg => rfl
  | clientError msg =>
      exact if_or_or_bool (containsCh ("rate limit".toList) (lowerCh msg))
        (containsCh ("429".toList) (lowerCh msg))
        (containsCh ("timeout".toList) (lowerCh msg))
        (containsCh ("connection".toList) (lowerCh msg))
  | connectionError msg => rfl
  | timeoutError msg => rfl
  | otherError msg => rfl

/-! ### Backoff scheduler -/

/-- Embedding of `calculate_delay` (master-gemini.py, lines 351-356):
`delay = min(base_delay * backoff_factor ** attempt, max_delay)` followed by
`jitter = delay * 0.1 * random.random()`, returning `delay + jitter`.
Real arithmetic is modelled by `ℚ`; the jitter sample `random.random()`
(uniform in `[0,1)`) is passed in explicitly as `jitter_u`. -/
def calculate_delay (attempt : Nat) (base_delay max_delay backoff_factor jitter_u : ℚ) : ℚ :=
  let delay := min (base_delay * backoff_factor ^ attempt) max_delay
  delay + delay * (1 / 10) * jitter_u

/-- Counterexample to C4 as stated: with `base = 1`, `max = 60`,
`factor = 1/2 > 0` and jitter sample `0 ∈ [0,1)`, the delay is strictly
decreasing from attempt 0 to attempt 1, refuting the claimed
non-decreasing-in-`n` envelope for arbitrary positive factors. -/
theorem calculate_delay_monotonicity_counterexample :
    (0 : ℚ) < 1 ∧ (0 : ℚ) < 60 ∧ (0 : ℚ) < 1 / 2 ∧ (0 : ℚ) ≤ 0 ∧ (0 : ℚ) < 1
      ∧ calculate_delay 1 1 60 (1 / 2) 0 < calculate_delay 0 1 60 (1 / 2) 0 := by
  norm_num [calculate_delay]

/-- Claim C4 (amended): for every attempt index `n`, `base > 0`, `max > 0`,
`factor > 0` and jitter sample `u ∈ [0,1)`, `calculate_delay` returns
`min(base * factor^n, max) + min(base * factor^n, max) * 0.1 * u`, which is
always at least the unjittered value; and when additionally `factor ≥ 1`
(the exponential-backoff regime; the source default is 2.0) the delay is
non-decreasing in `n`, saturating at `max`. -/
theorem calculate_delay_amended (n : Nat) (b M f u : ℚ) (hb : 0 < b) (hM : 0 < M)
    (hf : 0 < f) (hu0 : 0 ≤ u) (hu1 : u < 1) :
    calculate_delay n b M f u = min (b * f ^ n) M + min (b * f ^ n) M * (1 / 10) * u
      ∧ min (b * f ^ n) M ≤ calculate_delay n b M f u
      ∧ (1 ≤ f → calculate_delay n b M f u ≤ calculate_delay (n + 1) b M f u) := by
  have hd0 : (0 : ℚ) ≤ min (b * f ^ n) M :=
    le_min (mul_pos hb (pow_pos hf n)).le hM.le
  refine ⟨rfl, ?_, ?_⟩
  · have hj : 0 ≤ min (b * f ^ n) M * (1 / 10) * u :=
      mul_nonneg (mul_nonneg hd0 (by norm_num)) hu0
    simp only [calculate_delay]
    linarith
  · intro hf1
    have hpow : b * f ^ n ≤ b * f ^ (n + 1) :=
      mul_le_mul_of_nonneg_left (pow_le_pow_right₀ hf1 (Nat.le_succ n)) hb.le
    have hmin : min (b * f ^ n) M ≤ min (b * f ^ (n + 1)) M :=
      min_le_min hpow le_rfl
    simp only [calculate_delay]
    nlinarith [mul_nonneg (sub_nonneg.mpr hmin) hu0]

/-- Concrete instantiation of the amended C4 at the source defaults
`base = 1`, `max = 60`, `factor = 2`, with jitter sample `1/2`. -/
theorem calculate_delay_amended_witness :
    min ((1 : ℚ) * 2 ^ 0) 60 ≤ calculate_delay 0 1 60 2 (1 / 2) :=
  (calculate_delay_amended 0 1 60 2 (1 / 2) (by norm_num) (by norm_num)
    (by norm_num) (by norm_num) (by norm_num)).2.1

/-! ### Python `str.strip` -/

/-- Characters Python's `str.strip()` removes (ASCII whitespace). -/
def isPySpace (c : Char) : Bool :=
  c == ' ' || c == '\t' || c == '\n' || c == '\r' || c == Char.ofNat 11 || c == Char.ofNat 12

def pyStripLeft (s : List Char) : List Char := s.dropWhile isPySpace

def pyStripRight (s : List Char) : List Char := (s.reverse.dropWhile isPySpace).reverse

/-- Model of Python's `str.strip()`. -/
def pyStrip (s : List Char) : List Char := pyStripRight (pyStripLeft s)

def endsWithCh (s p : List Char) : Bool := startsWithCh s.reverse p.reverse

theorem length_dropWhile_le (p : Char → Bool) (l : List Char) :
    (l.dropWhile p).length ≤ l.length := by
  induction l with
  | nil => simp
  | cons a t ih =>
    rw [List.dropWhile_cons]
    by_cases h : p a = true
    · simp only [h, if_true]
      exact le_trans ih (Nat.le_succ _)
    · simp [h]

theorem dropWhile_eq_self_of_length {p : Char → Bool} {l : List Char}
    (h : (l.dropWhile p).length = l.length) : l.dropWhile p = l := by
  induction l with
  | nil => rfl
  | cons a t ih =>
    rw [List.dropWhile_cons] at h ⊢
    by_cases hpa : p a = true
    · simp only [hpa, if_true] at h ⊢
      have hle := length_dropWhile_le p t
      simp at h
      omega
    · simp [hpa]

theorem pyStripRight_length_le (l : List Char) : (pyStripRight l).length ≤ l.length := by
  unfold pyStripRight
  rw [List.length_reverse]
  calc (l.reverse.dropWhile isPySpace).length ≤ l.reverse.length := length_dropWhile_le _ _
  _ = l.length := List.length_reverse l

theorem pyStrip_eq_self_left {w : List Char} (hw : pyStrip w = w) :
    w.dropWhile isPySpace = w := by
  have h1 : (pyStrip w).length ≤ (w.dropWhile isPySpace).length := pyStripRight_length_le _
  have h2 : (w.dropWhile isPySpace).length ≤ w.length := length_dropWhile_le _ _
  rw [hw] at h1
  exact dropWhile_eq_self_of_length (by omega)

theorem pyStrip_eq_self_right {w : List Char} (hw : pyStrip w = w) :
    w.reverse.dropWhile isPySpace = w.reverse := by
  have hL := pyStrip_eq_self_left hw
  have hR : pyStripRight w = w := by
    have : pyStrip w = pyStripRight w := by
      unfold pyStrip pyStripLeft
      rw [hL]
    rw [← this, hw]
  have := congrArg List.reverse hR
  rwa [pyStripRight, List.reverse_reverse] at this

theorem head_not_space_of_strip {a : Char} {t : List Char}
    (hw : pyStrip (a :: t) = a :: t) : isPySpace a = false := by
  have hL := pyStrip_eq_self_left hw
  rw [List.dropWhile_cons] at hL
  by_cases hpa : isPySpace a = true
  · exfalso
    simp only [hpa, if_true] at hL
    have := length_dropWhile_le isPySpace t
    have := congrArg List.length hL
    simp at this
    omega
  · simpa using hpa

theorem startsWithCh_nil (s : List Char) : startsWithCh s [] = true := by
  cases s <;> rfl

theorem startsWithCh_append_self (p rest : List Char) : startsWithCh (p ++ rest) p = true := by
  induction p with
  | nil => exact startsWithCh_nil rest
  | cons a p' ih => simp [startsWithCh, ih]

theorem endsWithCh_append_self (l p : List Char) : endsWithCh (l ++ p) p = true := by
  unfold endsWithCh
  rw [List.reverse_append]
  exact startsWithCh_append_self p.reverse l.reverse

/-! ### Payload validator: code-fence cleaning -/

/-- First substitution of `clean_json_output` (master-gemini.py, line 298):
`re.sub(r"^\x60\x60\x60(?:json)?", "", cleaned, flags=re.IGNORECASE).strip()`.
The regex is greedy and anchored, so a case-insensitive leading
`` ```json `` consumes 7 characters, otherwise a leading `` ``` `` consumes
3, otherwise nothing is removed; the result is stripped. -/
def clean_step1 (cleaned : List Char) : List Char :=
  if startsWithCh (lowerCh cleaned) ("```json".toList) then pyStrip (cleaned.drop 7)
  else if startsWithCh cleaned ("```".toList) then pyStrip (cleaned.drop 3)
  else pyStrip cleaned

/-- Second substitution of `clean_json_output` (master-gemini.py, line 299):
`re.sub(r"\x60\x60\x60$", "", cleaned).strip()` — remove one trailing
`` ``` `` and strip. -/
def clean_step2 (cleaned : List Char) : List Char :=
  if endsWithCh cleaned ("```".toList) then pyStrip (cleaned.take (cleaned.length - 3))
  else pyStrip cleaned

/-- Embedding of `clean_json_output` (master-gemini.py, lines 295-300):
strip, remove a leading fence marker, strip, remove a trailing fence
marker, strip. -/
def clean_json_output (raw : List Char) : List Char :=
  clean_step2 (clean_step1 (pyStrip raw))

/-- Counterexample to C8 as stated: a fenced block with language tag
`python` is not cleaned to its inner content — only the backticks are
removed and the tag text stays glued to the payload. -/
theorem clean_json_output_counterexample :
    clean_json_output ("```python\n[1, 2]\n```".toList) = ("python\n[1, 2]".toList)
      ∧ ("python\n[1, 2]".toList) ≠ ("[1, 2]".toList) := by
  exact ⟨by decide, by decide⟩

theorem pyStripRight_last_not_space (x : List Char) (c : Char) (hc : isPySpace c = false) :
    pyStripRight (x ++ [c]) = x ++ [c] := by
  unfold pyStripRight
  rw [List.reverse_append]
  simp only [List.reverse_cons, List.reverse_nil, List.nil_append, List.singleton_append]
  rw [List.dropWhile_cons]
  simp only [hc, Bool.false_eq_true, if_false]
  simp [List.reverse_cons, List.reverse_reverse]

theorem pyStrip_fence_tail {w : List Char} (hw : pyStrip w = w) (hne : w ≠ []) :
    pyStrip (("\n".toList) ++ w ++ ("\n```".toList)) = w ++ ("\n```".toList) := by
  obtain ⟨a, t, rfl⟩ : ∃ a t, w = a :: t := by
    cases w with
    | nil => exact absurd rfl hne
    | cons a t => exact ⟨a, t, rfl⟩
  have hhead : isPySpace a = false := head_not_space_of_strip hw
  unfold pyStrip pyStripLeft
  have hleft : ((("\n".toList) ++ (a :: t)) ++ ("\n```".toList)).dropWhile isPySpace
      = (a :: t) ++ ("\n```".toList) := by
    show ('\n' :: ((a :: t) ++ ("\n```".toList))).dropWhile isPySpace = _
    rw [List.dropWhile_cons]
    simp only [show isPySpace '\n' = true from rfl, if_true]
    rw [List.cons_append, List.dropWhile_cons]
    simp [hhead]
  rw [hleft]
  have hsplit : (a :: t) ++ ("\n```".toList)
      = ((a :: t) ++ ("\n``".toList)) ++ [Char.ofNat 96] := by
    rw [List.append_assoc]
    exact congrArg (fun x => (a :: t) ++ x) (by decide)
  rw [hsplit]
  exact pyStripRight_last_not_space _ _ (by decide)

theorem pyStrip_append_newline {w : List Char} (hw : pyStrip w = w) (hne : w ≠ []) :
    pyStrip (w ++ ("\n".toList)) = w := by
  obtain ⟨a, t, rfl⟩ : ∃ a t, w = a :: t := by
    cases w with
    | nil => exact absurd rfl hne
    | cons a t => exact ⟨a, t, rfl⟩
  have hhead : isPySpace a = false := head_not_space_of_strip hw
  have hrev := pyStrip_eq_self_right hw
  unfold pyStrip pyStripLeft pyStripRight
  have h1 : ((a :: t) ++ ("\n".toList)).dropWhile isPySpace = (a :: t) ++ ("\n".toList) := by
    rw [List.cons_append, List.dropWhile_cons]
    simp [hhead]
  rw [h1]
  rw [show ((a :: t) ++ ("\n".toList)).reverse = '\n' :: (a :: t).reverse by simp]
  rw [List.dropWhile_cons]
  simp only [show isPySpace '\n' = true from rfl, if_true]
  rw [hrev, List.reverse_reverse]

theorem clean_step2_fence {w : List Char} (hw : pyStrip w = w) (hne : w ≠ []) :
    clean_step2 (w ++ ("\n```".toList)) = w := by
  unfold clean_step2
  have hsplit : w ++ ("\n```".toList) = (w ++ ("\n".toList)) ++ ("```".toList) := by
    rw [List.append_assoc]
    exact congrArg (fun x => w ++ x) (by decide)
  have hends : endsWithCh (w ++ ("\n```".toList)) ("```".toList) = true := by
    rw [hsplit]
    exact endsWithCh_append_self _ _
  rw [if_pos hends]
  have hlen : (w ++ ("\n```".toList)).length - 3 = (w ++ ("\n".toList)).length := by
    simp
  rw [hlen, hsplit, List.take_left]
  exact pyStrip_append_newline hw hne

theorem lowerCh_fence_json {tag : List Char} (rest : List Char)
    (htag : lowerCh tag = ("json".toList)) :
    lowerCh ((("```".toList) ++ tag) ++ rest) = ("```json".toList) ++ lowerCh rest := by
  simp only [lowerCh, List.map_append] at htag ⊢
  rw [htag]
  exact congrArg (fun x => x ++ List.map Char.toLower rest) (by decide)

theorem clean_step1_json {tag : List Char} (rest : List Char)
    (htag : lowerCh tag = ("json".toList)) :
    clean_step1 ((("```".toList) ++ tag) ++ rest) = pyStrip rest := by
  have htlen : tag.length = 4 := by
    have := congrArg List.length htag
    simpa [lowerCh] using this
  unfold clean_step1
  have hfirst : startsWithCh (lowerCh ((("```".toList) ++ tag) ++ rest))
      ("```json".toList) = true := by
    rw [lowerCh_fence_json rest htag]
    exact startsWithCh_append_self _ _
  rw [if_pos hfirst]
  have hdrop : ((("```".toList) ++ tag) ++ rest).drop 7 = rest := by
    rw [show 7 = (("```".toList) ++ tag).length by simp [htlen]]
    exact List.drop_left _ _
  rw [hdrop]

theorem startsWithCh_append_both (x s p : List Char) :
    startsWithCh (x ++ s) (x ++ p) = startsWithCh s p := by
  induction x with
  | nil => rfl
  | cons a x' ih => simp [startsWithCh, ih]

theorem clean_step1_bare (rest : List Char) :
    clean_step1 (("```".toList) ++ ('\n' :: rest)) = pyStrip ('\n' :: rest) := by
  unfold clean_step1
  have hlow : lowerCh (("```".toList) ++ ('\n' :: rest))
      = ("```".toList) ++ ('\n' :: lowerCh rest) := by
    simp only [lowerCh, List.map_append, List.map_cons]
    rw [show ("```".toList).map Char.toLower = ("```".toList) from by decide]
    rw [show Char.toLower '\n' = '\n' from by decide]
  have hfirst : startsWithCh (lowerCh (("```".toList) ++ ('\n' :: rest)))
      ("```json".toList) = false := by
    rw [hlow]
    rw [show (("```json".toList) : List Char) = ("```".toList) ++ ("json".toList) from rfl]
    rw [startsWithCh_append_both]
    rw [show (("json".toList) : List Char) = 'j' :: ("son".toList) from rfl]
    show (('\n' == 'j') && startsWithCh (lowerCh rest) ("son".toList)) = false
    rw [show (('\n' == 'j') : Bool) = false from by decide]
    exact Bool.false_and _
  have hneg : ¬ (startsWithCh (lowerCh (("```".toList) ++ ('\n' :: rest)))
      ("```json".toList) = true) := by
    rw [hfirst]
    simp
  rw [if_neg hneg]
  have hsecond : startsWithCh (("```".toList) ++ ('\n' :: rest)) ("```".toList) = true :=
    startsWithCh_append_self _ _
  rw [if_pos hsecond]
  have hdrop : ((("```".toList) ++ ('\n' :: rest))).drop 3 = '\n' :: rest := by
    rw [show 3 = ("```".toList).length from rfl]
    exact List.drop_left _ _
  rw [hdrop]

/-- Claim C8 (amended): the cleaning step recovers the inner content exactly
when the fence's language tag is the literal `json` (matched
case-insensitively) or absent; surrounding whitespace around the fenced
block is expressed by the hypothesis that stripping the raw text yields the
block.  As the counterexample shows, the claim's "any tag" does not hold:
the tag `python` is not removed there. -/
theorem clean_json_output_amended (raw tag w : List Char)
    (htag : lowerCh tag = ("json".toList) ∨ tag = [])
    (hw : pyStrip w = w)
    (hraw : pyStrip raw = (("```".toList) ++ tag) ++ (('\n' :: w) ++ ("\n```".toList))) :
    clean_json_output raw = w := by
  unfold clean_json_output
  rw [hraw]
  have hstep1 : clean_step1 ((("```".toList) ++ tag) ++ (('\n' :: w) ++ ("\n```".toList)))
      = pyStrip (('\n' :: w) ++ ("\n```".toList)) := by
    rcases htag with htag | htag
    · exact clean_step1_json _ htag
    · subst htag
      rw [show ((("```".toList) ++ ([] : List Char)) ++ (('\n' :: w) ++ ("\n```".toList)))
          = ("```".toList) ++ ('\n' :: (w ++ ("\n```".toList))) by simp]
      exact clean_step1_bare _
  rw [hstep1]
  by_cases hwe : w = []
  · subst hwe
    decide
  · have htail : pyStrip (('\n' :: w) ++ ("\n```".toList)) = w ++ ("\n```".toList) := by
      have := pyStrip_fence_tail hw hwe
      rwa [show ((("\n".toList) ++ w) ++ ("\n```".toList)) = ('\n' :: w) ++ ("\n```".toList)
        from rfl] at this
    rw [htail]
    exact clean_step2_fence hw hwe

/-- Concrete instantiation of the amended C8: an uppercase `JSON` fence with
surrounding whitespace cleans to the inner payload. -/
theorem clean_json_output_amended_witness :
    clean_json_output ("  ```JSON\n[1]\n```  \n".toList) = ("[1]".toList) :=
  clean_json_output_amended ("  ```JSON\n[1]\n```  \n".toList) ("JSON".toList)
    ("[1]".toList) (Or.inl (by decide)) (by decide) (by decide)

/-! ### Payload validator: failure classification -/

/-- Embedding of the parse-failure classification in `save_and_validate_json`
(master-gemini.py, lines 434-438): after a `json.JSONDecodeError`, the
failure is retryable when `str(e).lower()` contains one of `"unexpected"`,
`"truncated"`, `"incomplete"`, `"malformed"`, or when
`len(cleaned_output.strip()) < 10`. -/
def json_decode_retryable (error_msg cleaned_output : List Char) : Bool :=
  containsCh ("unexpected".toList) (lowerCh error_msg)
    || containsCh ("truncated".toList) (lowerCh error_msg)
    || containsCh ("incomplete".toList) (lowerCh error_msg)
    || containsCh ("malformed".toList) (lowerCh error_msg)
    || decide ((pyStrip cleaned_output).length < 10)

/-- Parse-failure classification as claim C5 words it: retryable exactly
when the message mentions truncation, incompleteness, or malformation, or
the cleaned text is shorter than 10 characters. -/
def json_decode_retryable_spec (error_msg cleaned_output : List Char) : Bool :=
  containsCh ("truncated".toList) (lowerCh error_msg)
    || containsCh ("incomplete".toList) (lowerCh error_msg)
    || containsCh ("malformed".toList) (lowerCh error_msg)
    || decide ((pyStrip cleaned_output).length < 10)

/-- Counterexample to C5 as stated: the Python `json` module's real message
`Unexpected UTF-8 BOM (decode using utf-8-sig)` mentions none of
truncation/incompleteness/malformation, and the cleaned text here is 15
characters long, yet the code classifies the failure retryable via the
extra keyword `unexpected`. -/
theorem json_decode_retryable_counterexample :
    json_decode_retryable
        ("Unexpected UTF-8 BOM (decode using utf-8-sig): line 1 column 1 (char 0)".toList)
        ("[1, 2, 3, 4, 5]".toList) = true
      ∧ json_decode_retryable_spec
        ("Unexpected UTF-8 BOM (decode using utf-8-sig): line 1 column 1 (char 0)".toList)
        ("[1, 2, 3, 4, 5]".toList) = false := by
  exact ⟨by decide, by decide⟩

/-- Claim C5 (amended): a parse failure is classified retryable if and only
if the parser's error message mentions unexpectedness, truncation,
incompleteness, or malformation, or the cleaned text is shorter than 10
characters — i.e. the code's classifier is exactly the claimed one plus the
keyword `unexpected`. -/
theorem json_decode_retryable_amended (msg cleaned : List Char) :
    json_decode_retryable msg cleaned =
      (containsCh ("unexpected".toList) (lowerCh msg)
        || json_decode_retryable_spec msg cleaned) := by
  simp [json_decode_retryable, json_decode_retryable_spec, Bool.or_assoc]

/-- Embedding of the schema-failure classification in
`save_and_validate_json` (master-gemini.py, lines 461-465): after a pydantic
`ValidationError`, the failure is retryable when `str(e).lower()` contains
one of `"missing"`, `"required field"`, `"none is not an allowed value"`,
or when `len(parsed) < 3`. -/
def schema_validation_retryable (error_msg : List Char) (num_items : Nat) : Bool :=
  containsCh ("missing".toList) (lowerCh error_msg)
    || containsCh ("required field".toList) (lowerCh error_msg)
    || containsCh ("none is not an allowed value".toList) (lowerCh error_msg)
    || decide (num_items < 3)

/-- Schema-failure classification as claim C6 words it: retryable exactly
when the message mentions a missing/required field or fewer than 3 items
were returned. -/
def schema_validation_retryable_spec (error_msg : List Char) (num_items : Nat) : Bool :=
  containsCh ("missing".toList) (lowerCh error_msg)
    || containsCh ("required field".toList) (lowerCh error_msg)
    || decide (num_items < 3)

/-- Counterexample to C6 as stated: the pydantic v1 message
`none is not an allowed value` (raised when a required field is null)
mentions neither `missing` nor `required field`, and with 5 items the
under-count branch does not fire, yet the code classifies the failure
retryable via its third keyword. -/
theorem schema_validation_retryable_counterexample :
    schema_validation_retryable
        ("1 validation error for TagAudit: none is not an allowed value (type=type_error.none.not_allowed)".toList)
        5 = true
      ∧ schema_validation_retryable_spec
        ("1 validation error for TagAudit: none is not an allowed value (type=type_error.none.not_allowed)".toList)
        5 = false := by
  exact ⟨by decide, by decide⟩

/-- Claim C6 (amended): a schema failure is classified retryable if and only
if the validation error message mentions a missing/required field or that
None is not an allowed value, or the array has fewer than 3 items; the
claim's two particular examples stand: a 5-item response with a
missing-required-field message is retryable, and a 4-item response whose
schema mismatch is unrelated to missing fields is terminal. -/
theorem schema_validation_retryable_amended :
    (∀ (msg : List Char) (n : Nat),
      schema_validation_retryable msg n =
        (schema_validation_retryable_spec msg n
          || containsCh ("none is not an allowed value".toList) (lowerCh msg)))
      ∧ schema_validation_retryable
          ("1 validation error for TagAudit newTag Field required [type=missing, input_type=dict]".toList)
          5 = true
      ∧ schema_validation_retryable
          ("1 validation error for TagAudit noteId Input should be a valid integer, unable to parse string as an integer [type=int_parsing]".toList)
          4 = false := by
  refine ⟨fun msg n => ?_, by decide, by decide⟩
  simp only [schema_validation_retryable, schema_validation_retryable_spec]
  generalize containsCh ("missing".toList) (lowerCh msg) = a
  generalize containsCh ("required field".toList) (lowerCh msg) = b
  generalize containsCh ("none is not an allowed value".toList) (lowerCh msg) = c
  generalize decide (n < 3) = d
  cases a <;> cases b <;> cases c <;> cases d <;> rfl

/-! ### Chunk runner -/

/-- Outcome of one outer attempt's invocation
(`call_gemini_api_with_retry`, master-gemini.py, lines 359-402): the call
either returns raw text, raises `RetryableError` (after its inner retries
are exhausted, line 402), or raises `NonRetryableError` (line 391). -/
inductive InvokeResult (ρ : Type) : Type
  | text (raw : ρ)
  | retryableErr
  | nonRetryableErr

/-- Observable trace of `execute_single_chunk`: how many outer attempts ran,
how many per-attempt raw logs were persisted (the `log_path.write_text` at
line 419 inside `save_and_validate_json`, reached once per call at line
254), and the returned success flag. -/
structure ChunkTrace where
  attemptsMade : Nat
  logsWritten : Nat
  succeeded : Bool
deriving DecidableEq

/-- Loop body of `execute_single_chunk` (master-gemini.py, lines 239-289),
recursing on the remaining fuel `maxRetries + 1 - i` where `i` is
`overall_attempt`.  `invoke i` is the outer attempt's invocation outcome
and `validate raw` the `(success, is_retryable)` pair returned by
`save_and_validate_json`. -/
def escAux {ρ : Type} (invoke : Nat → InvokeResult ρ) (validate : ρ → Bool × Bool)
    (maxRetries : Nat) : Nat → Nat → ChunkTrace
  | _, 0 => ⟨0, 0, false⟩
  | i, fuel + 1 =>
    match invoke i with
    | .nonRetryableErr => ⟨1, 0, false⟩
    | .retryableErr =>
      if i < maxRetries then
        let t := escAux invoke validate maxRetries (i + 1) fuel
        ⟨t.attemptsMade + 1, t.logsWritten, t.succeeded⟩
      else ⟨1, 0, false⟩
    | .text raw =>
      let sv := validate raw
      if sv.1 then ⟨1, 1, true⟩
      else if sv.2 = false then ⟨1, 1, false⟩
      else if i < maxRetries then
        let t := escAux invoke validate maxRetries (i + 1) fuel
        ⟨t.attemptsMade + 1, t.logsWritten + 1, t.succeeded⟩
      else ⟨1, 1, false⟩

/-- Embedding of `execute_single_chunk` (master-gemini.py, lines 216-293):
the outer loop `for overall_attempt in range(max_retries + 1)`. -/
def execute_single_chunk {ρ : Type} (invoke : Nat → InvokeResult ρ)
    (validate : ρ → Bool × Bool) (maxRetries : Nat) : ChunkTrace :=
  escAux invoke validate maxRetries 0 (maxRetries + 1)

/-- Counterexample to C1 as stated: with the default budget
`max_retries = 3` and an invocation that always raises `RetryableError`,
the runner makes the claimed 4 outer attempts and returns Failed, but
persists 0 raw-attempt logs, not one per attempt — `save_and_validate_json`
(which writes the log) is reached only when the invocation returns text. -/
theorem execute_single_chunk_counterexample :
    (execute_single_chunk (fun _ => (InvokeResult.retryableErr : InvokeResult Unit))
        (fun _ => (false, false)) 3)
      = ⟨4, 0, false⟩
      ∧ (0 : Nat) ≠ 3 + 1 := by
  exact ⟨by decide, by decide⟩

theorem escAux_always_retryable {ρ : Type} (validate : ρ → Bool × Bool) (maxRetries : Nat) :
    ∀ (fuel i : Nat), i + fuel = maxRetries + 1 →
      escAux (fun _ => (InvokeResult.retryableErr : InvokeResult ρ)) validate maxRetries i fuel
        = ⟨fuel, 0, false⟩ := by
  intro fuel
  induction fuel with
  | zero => intro i h; rfl
  | succ f ih =>
    intro i h
    by_cases hlt : i < maxRetries
    · have hf := ih (i + 1) (by omega)
      simp only [escAux, hlt, if_true, hf]
    · have hf : f = 0 := by omega
      subst hf
      simp [escAux, hlt]

/-- Claim C1 (amended): for every chunk whose invocation always raises a
Retryable error, `execute_single_chunk` with outer budget `max_retries`
makes exactly `max_retries + 1` outer attempts and returns Failed, and
persists no raw-attempt log: the per-attempt log is written only when an
outer attempt's invocation returns text, which never happens here. -/
theorem execute_single_chunk_amended {ρ : Type} (validate : ρ → Bool × Bool)
    (maxRetries : Nat) :
    execute_single_chunk (fun _ => (InvokeResult.retryableErr : InvokeResult ρ))
        validate maxRetries
      = ⟨maxRetries + 1, 0, false⟩ := by
  unfold execute_single_chunk
  exact escAux_always_retryable validate maxRetries (maxRetries + 1) 0 (by omega)

/-! ### Pipeline orchestrator -/

/-- Per-chunk outcome as observed by `process_chunks` (master-gemini.py,
lines 184-202): `execute_single_chunk` returns True (`success`) or False
(`failure`), raises `KeyboardInterrupt` (`interrupted`), or raises some
other exception (`raised`). -/
inductive ChunkOutcome : Type
  | success
  | failure
  | raised
  | interrupted
deriving DecidableEq

/-- Aggregate state printed by `process_chunks`' summary (lines 204-213):
`successful_chunks`, `failed_chunks`, plus the 1-indexed list of chunks for
which `execute_single_chunk` was started. -/
structure RunSummary where
  successful : Nat
  failed : List Nat
  attempted : List Nat
deriving DecidableEq

/-- Loop of `process_chunks` (master-gemini.py, lines 160-202) over
`enumerate(chunk_paths, 1)`: success increments `successful_chunks`,
failure or an unexpected exception appends to `failed_chunks`, and
`KeyboardInterrupt` breaks out of the loop. -/
def process_chunks_aux : List ChunkOutcome → Nat → RunSummary
  | [], _ => ⟨0, [], []⟩
  | o :: rest, i =>
    match o with
    | .interrupted => ⟨0, [], [i]⟩
    | .success =>
      let r := process_chunks_aux rest (i + 1)
      ⟨r.successful + 1, r.failed, i :: r.attempted⟩
    | .failure =>
      let r := process_chunks_aux rest (i + 1)
      ⟨r.successful, i :: r.failed, i :: r.attempted⟩
    | .raised =>
      let r := process_chunks_aux rest (i + 1)
      ⟨r.successful, i :: r.failed, i :: r.attempted⟩

/-- Embedding of `process_chunks` (master-gemini.py, lines 150-213), driven
by the list of per-chunk outcomes; chunk numbering starts at 1. -/
def process_chunks (outcomes : List ChunkOutcome) : RunSummary :=
  process_chunks_aux outcomes 1

theorem process_chunks_aux_attempted (outcomes : List ChunkOutcome) :
    ChunkOutcome.interrupted ∉ outcomes →
      ∀ i : Nat, (process_chunks_aux outcomes i).attempted = List.range' i outcomes.length := by
  induction outcomes with
  | nil => intro _ i; rfl
  | cons o rest ih =>
    intro h i
    have ho : o ≠ ChunkOutcome.interrupted := fun hc => h (hc ▸ List.mem_cons_self o rest)
    have hrest : ChunkOutcome.interrupted ∉ rest := fun hc => h (List.mem_cons_of_mem o hc)
    rw [List.length_cons, List.range'_succ]
    cases o with
    | interrupted => exact absurd rfl ho
    | success => simp only [process_chunks_aux]; rw [ih hrest (i + 1)]
    | failure => simp only [process_chunks_aux]; rw [ih hrest (i + 1)]
    | raised => simp only [process_chunks_aux]; rw [ih hrest (i + 1)]

/-- Claim C7: the orchestrator attempts every chunk in ascending index
order, continuing past individual chunk failures (whenever no user
interrupt occurs, the attempted list is exactly `1, …, n`); in particular,
with 5 chunks where chunk 3 fails terminally (its runner returns False) and
the rest succeed, the summary reports 4 succeeded, 1 failed with failed
index list `[3]`, and chunks 4 and 5 are still attempted. -/
theorem process_chunks_isolation :
    (∀ outcomes : List ChunkOutcome, ChunkOutcome.interrupted ∉ outcomes →
        (process_chunks outcomes).attempted = List.range' 1 outcomes.length)
      ∧ process_chunks
          [ChunkOutcome.success, ChunkOutcome.success, ChunkOutcome.failure,
            ChunkOutcome.success, ChunkOutcome.success]
          = ⟨4, [3], [1, 2, 3, 4, 5]⟩ := by
  constructor
  · intro outcomes h
    exact process_chunks_aux_attempted outcomes h 1
  · decide

/-- Concrete instantiation of C7's universal part: two chunks, the first
failing, are both attempted in order. -/
theorem process_chunks_isolation_witness :
    (process_chunks [ChunkOutcome.failure, ChunkOutcome.success]).attempted = [1, 2] :=
  process_chunks_isolation.1 [ChunkOutcome.failure, ChunkOutcome.success] (by decide)

/-! ### Payload validator: schema stage

`json.loads` output is modelled to the depth the validation stage inspects:
the top level is either a non-array value or an array whose elements are
objects (string-keyed field lists with primitive values — the schema
classes `TagAudit`/`ExtraUpdate`/`TagUpdate` only carry `int` and `str`
fields) or non-mapping values. -/

inductive JPrim : Type
  | jnull
  | jbool (b : Bool)
  | jint (n : Int)
  | jstr (s : List Char)
deriving DecidableEq

/-- One element of the parsed top-level array: a JSON object (a mapping) or
a non-mapping value (string, number, boolean, null, or nested array). -/
inductive JElem : Type
  | obj (fields : List (String × JPrim))
  | nonObj (v : JPrim)
  | nonObjArr (elems : List JPrim)
deriving DecidableEq

/-- Result of `json.loads` as the validation stage distinguishes it. -/
inductive ParsedJson : Type
  | top (v : JPrim)
  | arr (elems : List JElem)
deriving DecidableEq

/-- Schema class `TagAudit` (master-gemini.py, lines 58-61):
`noteId: int`, `oldTag: str`, `newTag: str`. -/
structure TagAudit where
  noteId : Int
  oldTag : List Char
  newTag : List Char
deriving DecidableEq

/-- Python exceptions the item loop can raise: a pydantic `ValidationError`
(caught at line 456) or any other exception such as the `TypeError` from
`schema_class(**item)` on a non-mapping (caught at line 469). -/
inductive PyExn : Type
  | validationError (msg : List Char)
  | typeError (msg : List Char)
deriving DecidableEq

/-- Dictionary lookup (`item["key"]` through pydantic's field extraction). -/
def getField : List (String × JPrim) → String → Option JPrim
  | [], _ => none
  | p :: rest, key => if p.1 = key then some p.2 else getField rest key

/-- Message text modelled from pydantic's missing-required-field error
(`Field required [type=missing, ...]`); for the classifiers only its
containing the substring `missing` matters. -/
def missingFieldMsg (field : List Char) : List Char :=
  ("validation error for TagAudit ".toList) ++ field
    ++ (" field required [type=missing, input_type=dict]".toList)

/-- Message text modelled from pydantic's wrong-type error for an `int`
field (`Input should be a valid integer`); it contains none of the
classifier keywords. -/
def intFieldMsg (field : List Char) : List Char :=
  ("validation error for TagAudit ".toList) ++ field
    ++ (" input should be a valid integer [type=int_parsing]".toList)

/-- Message text modelled from pydantic's wrong-type error for a `str`
field. -/
def strFieldMsg (field : List Char) : List Char :=
  ("validation error for TagAudit ".toList) ++ field
    ++ (" input should be a valid string [type=string_type]".toList)

/-- Message of Python's `TypeError` when `schema_class(**item)` is applied
to a non-mapping. -/
def mappingTypeErrMsg : List Char := ("argument after ** must be a mapping".toList)

/-- Validation of one object against the `TagAudit` schema, modelling
`TagAudit(**item)`: every declared field must be present with the declared
primitive type; failures raise a `ValidationError` whose message is
modelled from pydantic's text (the model reports the first failing field in
declaration order). -/
def tagAuditValidate (fields : List (String × JPrim)) : Except PyExn TagAudit :=
  match getField fields "noteId" with
  | none => .error (.validationError (missingFieldMsg ("noteId".toList)))
  | some (JPrim.jint n) =>
    match getField fields "oldTag" with
    | none => .error (.validationError (missingFieldMsg ("oldTag".toList)))
    | some (JPrim.jstr s1) =>
      match getField fields "newTag" with
      | none => .error (.validationError (missingFieldMsg ("newTag".toList)))
      | some (JPrim.jstr s2) => .ok ⟨n, s1, s2⟩
      | some _ => .error (.validationError (strFieldMsg ("newTag".toList)))
    | some _ => .error (.validationError (strFieldMsg ("oldTag".toList)))
  | some _ => .error (.validationError (intFieldMsg ("noteId".toList)))

/-- The comprehension `[schema_class(**item) for item in parsed]`
(master-gemini.py, line 454): items are validated left to right and the
first exception wins; a non-mapping element raises `TypeError` at the
`**item` unpacking. -/
def validateItems : List JElem → Except PyExn (List TagAudit)
  | [] => .ok []
  | JElem.obj fields :: rest =>
    match tagAuditValidate fields with
    | .error e => .error e
    | .ok a =>
      match validateItems rest with
      | .error e => .error e
      | .ok as => .ok (a :: as)
  | _ :: _ => .error (.typeError mappingTypeErrMsg)

/-- Outcome of the pydantic stage of `save_and_validate_json`
(master-gemini.py, lines 442-472), before the failure is folded into the
`(success, is_retryable)` pair. -/
inductive ValidateStage : Type
  | success (items : List TagAudit)
  | shapeFailure
  | emptyFailure
  | schemaFailure (msg : List Char) (numItems : Nat)
  | genericFailure (msg : List Char)
deriving DecidableEq

/-- The pydantic stage: non-list → shape failure (line 444); empty list →
empty failure (line 449); a `ValidationError` → schema failure carrying
`str(e)` and `len(parsed)` (lines 456-467); any other exception → generic
failure (lines 469-472); otherwise success. -/
def validate_stage (parsed : ParsedJson) : ValidateStage :=
  match parsed with
  | .top _ => .shapeFailure
  | .arr elems =>
    if elems.length = 0 then .emptyFailure
    else
      match validateItems elems with
      | .ok items => .success items
      | .error (.validationError m) => .schemaFailure m elems.length
      | .error (.typeError m) => .genericFailure m

/-- The `(success, is_retryable)` pair `save_and_validate_json` returns for
each stage outcome (lines 447, 452, 467, 472, 484). -/
def stage_result : ValidateStage → Bool × Bool
  | .success _ => (true, false)
  | .shapeFailure => (false, true)
  | .emptyFailure => (false, true)
  | .schemaFailure m n => (false, schema_validation_retryable m n)
  | .genericFailure _ => (false, true)

/-! ### Canonical output (tag-auditor mode) -/

/-- Canonical key order of the tag-auditor mode (`order_audit`,
master-gemini.py, lines 634-636): `noteId`, `oldTag`, `newTag`. -/
def order_audit (a : TagAudit) : List (String × JPrim) :=
  [("noteId", JPrim.jint a.noteId), ("oldTag", JPrim.jstr a.oldTag),
    ("newTag", JPrim.jstr a.newTag)]

/-- Serialization of a primitive, modelling `json.dumps` determinism
(string escaping elided — the pipeline's tag/field payloads are plain
text). -/
def serializePrim : JPrim → List Char
  | .jnull => ("null".toList)
  | .jbool true => ("true".toList)
  | .jbool false => ("false".toList)
  | .jint n => (toString n).toList
  | .jstr s => '"' :: (s ++ ['"'])

def serializeField (f : String × JPrim) : List Char :=
  '"' :: (f.1.toList ++ ('"' :: (':' :: (' ' :: serializePrim f.2))))

/-- Serialization of an array of objects, modelling the deterministic
`json.dumps([...], ensure_ascii=False)` of the output writer
(master-gemini.py, lines 476-478); indentation whitespace is elided, which
preserves the byte-stability property the claims are about. -/
def serializeObjs (objs : List (List (String × JPrim))) : List Char :=
  ('[' :: List.intercalate (", ".toList)
      (objs.map (fun fs =>
        Char.ofNat 123 :: (List.intercalate (", ".toList) (fs.map serializeField)
          ++ [Char.ofNat 125]))))
    ++ [']']

/-- Success path of `save_and_validate_json` (lines 474-484): on full
validation success the canonically re-ordered items are serialized;
every failure yields no output artifact. -/
def save_validated_output (parsed : ParsedJson) : Option (List Char) :=
  match validate_stage parsed with
  | .success items => some (serializeObjs (items.map order_audit))
  | _ => none

theorem getField_perm {l₁ l₂ : List (String × JPrim)} (h : l₁.Perm l₂) :
    (l₂.map Prod.fst).Nodup → ∀ k : String, getField l₁ k = getField l₂ k := by
  induction h with
  | nil => intro _ k; rfl
  | cons x h ih =>
    intro hnd k
    simp only [List.map_cons] at hnd
    simp only [getField]
    by_cases hk : x.1 = k
    · simp [hk]
    · simp only [if_neg hk]
      exact ih (List.nodup_cons.mp hnd).2 k
  | swap x y l =>
    intro hnd k
    simp only [List.map_cons] at hnd
    have hxy : x.1 ≠ y.1 := by
      have h1 := (List.nodup_cons.mp hnd).1
      exact fun hc => h1 (List.mem_cons.mpr (Or.inl hc))
    simp only [getField]
    by_cases hx : x.1 = k <;> by_cases hy : y.1 = k
    · exact absurd (hx.trans hy.symm) hxy
    · simp [hx, hy]
    · simp [hx, hy]
    · simp [hx, hy]
  | trans h1 h2 ih1 ih2 =>
    intro hnd k
    have hnd2 := ((h2.map Prod.fst).nodup_iff).mpr hnd
    rw [ih1 hnd2 k, ih2 hnd k]

theorem order_audit_keys_nodup (a : TagAudit) :
    ((order_audit a).map Prod.fst).Nodup := by
  show (["noteId", "oldTag", "newTag"] : List String).Nodup
  decide

theorem tagAuditValidate_perm (o : List (String × JPrim)) (a : TagAudit)
    (h : o.Perm (order_audit a)) : tagAuditValidate o = Except.ok a := by
  have h1 : getField o "noteId" = some (JPrim.jint a.noteId) := by
    rw [getField_perm h (order_audit_keys_nodup a)]
    rfl
  have h2 : getField o "oldTag" = some (JPrim.jstr a.oldTag) := by
    rw [getField_perm h (order_audit_keys_nodup a)]
    rfl
  have h3 : getField o "newTag" = some (JPrim.jstr a.newTag) := by
    rw [getField_perm h (order_audit_keys_nodup a)]
    rfl
  simp only [tagAuditValidate, h1, h2, h3]

theorem validateItems_perm {objs : List (List (String × JPrim))} {items : List TagAudit}
    (h : List.Forall₂ (fun o a => o.Perm (order_audit a)) objs items) :
    validateItems (objs.map JElem.obj) = Except.ok items := by
  induction h with
  | nil => rfl
  | cons hoa h ih =>
    simp only [List.map_cons, validateItems, tagAuditValidate_perm _ _ hoa, ih]

/-- Claim C9: validating an already-canonical non-empty output array whose
items' keys have been permuted arbitrarily yields byte-identical canonical
output — the stage succeeds with exactly the original items, and the
serialized artifact equals the original canonical serialization. -/
theorem validator_idempotent (items : List TagAudit) (objs : List (List (String × JPrim)))
    (hne : items ≠ [])
    (hperm : List.Forall₂ (fun o a => o.Perm (order_audit a)) objs items) :
    validate_stage (ParsedJson.arr (objs.map JElem.obj)) = ValidateStage.success items
      ∧ save_validated_output (ParsedJson.arr (objs.map JElem.obj))
        = some (serializeObjs (items.map order_audit)) := by
  have hlen : (objs.map JElem.obj).length ≠ 0 := by
    have := hperm.length_eq
    simp only [List.length_map, this]
    simpa using fun hc => hne (List.length_eq_zero.mp hc)
  have hstage : validate_stage (ParsedJson.arr (objs.map JElem.obj))
      = ValidateStage.success items := by
    simp only [validate_stage, hlen, if_false, validateItems_perm hperm]
  refine ⟨hstage, ?_⟩
  simp only [save_validated_output, hstage]

/-- Concrete instantiation of C9: one item with keys supplied in the order
`newTag`, `noteId`, `oldTag` validates back to byte-identical canonical
output. -/
theorem validator_idempotent_witness :
    save_validated_output (ParsedJson.arr [JElem.obj
        [("newTag", JPrim.jstr ("b".toList)), ("noteId", JPrim.jint 1),
          ("oldTag", JPrim.jstr ("a".toList))]])
      = some (serializeObjs ([(⟨1, ("a".toList), ("b".toList)⟩ : TagAudit)].map order_audit)) :=
  (validator_idempotent [⟨1, ("a".toList), ("b".toList)⟩]
    [[("newTag", JPrim.jstr ("b".toList)), ("noteId", JPrim.jint 1),
      ("oldTag", JPrim.jstr ("a".toList))]]
    (List.cons_ne_nil _ _)
    (List.Forall₂.cons (List.perm_append_singleton _ _).symm List.Forall₂.nil)).2

/-! ### Non-object elements (claim C10) -/

def isMappingElem : JElem → Bool
  | .obj _ => true
  | _ => false

def c10BadArray : List JElem :=
  [JElem.obj [("noteId", JPrim.jstr ("abc".toList)), ("oldTag", JPrim.jstr ("a".toList)),
      ("newTag", JPrim.jstr ("b".toList))],
    JElem.nonObj (JPrim.jstr ("x".toList)),
    JElem.nonObj (JPrim.jstr ("y".toList))]

/-- Counterexample to C10 as stated: this 3-element array contains two
non-mapping elements, yet the items are validated left to right, so the
first element — an object whose `noteId` is a non-numeric string — raises
`ValidationError` first: the failure takes the schema-error path, not the
generic exception path, and with no keyword match and 3 items it is
classified terminal, not retryable. -/
theorem validate_stage_nonobject_counterexample :
    (∃ e ∈ c10BadArray, isMappingElem e = false)
      ∧ validate_stage (ParsedJson.arr c10BadArray)
        = ValidateStage.schemaFailure (intFieldMsg ("noteId".toList)) 3
      ∧ stage_result (validate_stage (ParsedJson.arr c10BadArray)) = (false, false) := by
  refine ⟨⟨JElem.nonObj (JPrim.jstr ("x".toList)), by decide, rfl⟩, by decide, by decide⟩

theorem validateItems_first_nonobj {pre : List (List (String × JPrim))}
    {items : List TagAudit}
    (hpre : List.Forall₂ (fun o a => tagAuditValidate o = Except.ok a) pre items)
    (x : JElem) (rest : List JElem) (hx : isMappingElem x = false) :
    validateItems (pre.map JElem.obj ++ x :: rest)
      = Except.error (PyExn.typeError mappingTypeErrMsg) := by
  induction hpre with
  | nil =>
    cases x with
    | obj fields => exact absurd hx (by simp [isMappingElem])
    | nonObj v => rfl
    | nonObjArr elems => rfl
  | cons hoa h ih =>
    show validateItems (JElem.obj _ :: (List.map JElem.obj _ ++ x :: rest)) = _
    simp only [validateItems, hoa, ih]

/-- Claim C10 (amended): when the first failing element of the parsed
non-empty array is a non-object — i.e. every earlier element is an object
passing the schema — validation fails via the generic `TypeError` path of
`schema_class(**item)` and is classified retryable, regardless of the
message and of the item count.  (As the counterexample shows, merely
containing a non-object somewhere is not enough: an earlier invalid object
wins and takes the schema path.) -/
theorem validate_stage_nonobject_amended (pre : List (List (String × JPrim)))
    (items : List TagAudit) (x : JElem) (rest : List JElem)
    (hpre : List.Forall₂ (fun o a => tagAuditValidate o = Except.ok a) pre items)
    (hx : isMappingElem x = false) :
    validate_stage (ParsedJson.arr (pre.map JElem.obj ++ x :: rest))
        = ValidateStage.genericFailure mappingTypeErrMsg
      ∧ stage_result (validate_stage (ParsedJson.arr (pre.map JElem.obj ++ x :: rest)))
        = (false, true) := by
  have hlen : (pre.map JElem.obj ++ x :: rest).length ≠ 0 := by simp
  have hstage : validate_stage (ParsedJson.arr (pre.map JElem.obj ++ x :: rest))
      = ValidateStage.genericFailure mappingTypeErrMsg := by
    simp only [validate_stage, hlen, if_false, validateItems_first_nonobj hpre x rest hx]
  refine ⟨hstage, ?_⟩
  rw [hstage]
  rfl

/-- Concrete instantiation of the amended C10: a valid object followed by a
bare number fails via the generic path and is retryable. -/
theorem validate_stage_nonobject_amended_witness :
    stage_result (validate_stage (ParsedJson.arr
        ([[("noteId", JPrim.jint 1), ("oldTag", JPrim.jstr ("a".toList)),
            ("newTag", JPrim.jstr ("b".toList))]].map JElem.obj
          ++ JElem.nonObj (JPrim.jint 7) :: []))) = (false, true) :=
  (validate_stage_nonobject_amended
    [[("noteId", JPrim.jint 1), ("oldTag", JPrim.jstr ("a".toList)),
        ("newTag", JPrim.jstr ("b".toList))]]
    [⟨1, ("a".toList), ("b".toList)⟩] (JElem.nonObj (JPrim.jint 7)) []
    (List.Forall₂.cons (by rfl) List.Forall₂.nil) rfl).2

end MasterGemini
